import Mathlib

/-!
Verification development for the `ctx` repository's release-summary core:
the step-result primitive and step runner, the deploy-log locator, the
payload extractor, the branch matcher, and the six-step release-summary
pipeline with its report assembly.

Modelling conventions:
* JavaScript strings are modelled as Lean `String` / `List Char`.
* Promised (async) work is modelled by its outcome, `Except String T`:
  `.ok v` for a promise that resolves with `v`, `.error msg` for a promise
  that rejects with an error whose message is `msg`.
* Wall-clock timestamps (`Date.now()`) are modelled as natural numbers of
  milliseconds; a step's measured duration is the difference of the two
  readings taken around the unit of work.
* `JSON.parse` is a platform built-in, not repository code; it enters the
  model as an explicit `parse` argument of type
  `List Char → Except String Json` (rejection carries the thrown message).
  A concrete executable `jsonParse` covering the JSON fragment exercised by
  the tests instantiates it in concrete evaluations.
* The `verificationToken` and `timestamp` envelope fields are produced by
  crypto/clock externals and are opaque to the core's logic; they are
  omitted from the `ToolResponse` model.
-/

namespace Ctx

-- ---------------------------------------------------------------------------
-- Universal tool response envelope (packages/shared respond.ts)
-- ---------------------------------------------------------------------------

structure ToolResponse (T : Type) where
  success : Bool
  data : T
  summary : String
  errors : List String

/-- Model of `buildResponse(data, summary)` (callers in the core never pass
extra `errors`). -/
def buildResponse {T : Type} (data : T) (summary : String) : ToolResponse T :=
  { success := true, data := data, summary := summary, errors := [] }

/-- Model of `buildError(error, data)` (callers in the core never pass extra
`errors`, so the errors list is just `[error]`). -/
def buildError {T : Type} (error : String) (data : T) : ToolResponse T :=
  { success := false, data := data, summary := error, errors := [error] }

-- ---------------------------------------------------------------------------
-- Workflow state machine primitives (packages/shared respond.ts)
-- ---------------------------------------------------------------------------

inductive StepStatus where
  | success
  | failed
  | skipped
  | pending
deriving DecidableEq, Repr, Fintype

structure StepResult (T : Type) where
  status : StepStatus
  data : Option T
  error : Option String
  durationMs : Nat

/-- Model of `pendingStep()`. -/
def pendingStep {T : Type} : StepResult T :=
  { status := .pending, data := none, error := none, durationMs := 0 }

/-- Model of `skipStep()`. -/
def skipStep {T : Type} : StepResult T :=
  { status := .skipped, data := none, error := none, durationMs := 0 }

/-- Model of `runStep(name, fn)`: the async work is represented by its
outcome `fn : Except String T`, and the two `Date.now()` readings by
`start` and `stop`.  The `name` argument is used by the source only for
logging. -/
def runStep {T : Type} (name : String) (fn : Except String T)
    (start stop : Nat) : StepResult T :=
  match fn with
  | .ok data =>
      { status := .success, data := some data, error := none,
        durationMs := stop - start }
  | .error e =>
      { status := .failed, data := none, error := some e,
        durationMs := stop - start }

-- ---------------------------------------------------------------------------
-- Log entries and the Deploy-Log Locator (packages/github lib/logs.ts)
-- ---------------------------------------------------------------------------

structure LogEntry where
  fileName : String
  content : String
deriving DecidableEq, Repr

/-- Lower-cased code points of a string, modelling `s.toLowerCase()`. -/
def lowerChars (s : String) : List Char :=
  s.data.map Char.toLower

/-- Model of JavaScript `hay.includes(needle)` on code-point lists. -/
def containsSub (hay needle : List Char) : Bool :=
  if needle.isPrefixOf hay then true
  else
    match hay with
    | [] => false
    | _ :: t => containsSub t needle

/-- The locator's per-entry test:
`e.fileName.toLowerCase().includes("deploy trigger stage")`. -/
def isDeployName (e : LogEntry) : Bool :=
  containsSub (lowerChars e.fileName) ("deploy trigger stage".data)

/-- Model of `findDeployTriggerStageLog(entries)`: the first entry whose
file name contains the marker substring case-insensitively; a miss is a
success response with `null` data. -/
def findDeployTriggerStageLog (entries : List LogEntry) : ToolResponse (Option LogEntry) :=
  match entries.find? isDeployName with
  | some found => buildResponse (some found) ("Found Deploy Trigger Stage log: " ++ found.fileName)
  | none => buildResponse none ("No Deploy Trigger Stage log entry found in zip.")

-- ---------------------------------------------------------------------------
-- Payload Extractor (packages/github lib/logs.ts, extractPayloadObject)
-- ---------------------------------------------------------------------------

/-- ASCII portion of the JavaScript regex class `\s`; the Unicode space
characters it also matches never occur in the inputs considered here. -/
def isJsWhitespace (c : Char) : Bool :=
  c == ' ' || c == '\t' || c == '\n' || c == '\r' || c == '\x0b' || c == '\x0c'

/-- Strips a (lower-case) literal pattern off the front of a string,
comparing case-insensitively; returns the remainder on a match. -/
def stripCI : List Char → List Char → Option (List Char)
  | [], s => some s
  | _ :: _, [] => none
  | p :: ps, c :: cs => if c.toLower = p then stripCI ps cs else none

/-- Does the regex `/Payload\s*:/i` match at the head of `cs`?  Greedy `\s*`
followed by a mandatory `:` is equivalent to skipping the maximal
whitespace run and requiring `:` next, because `:` is not whitespace. -/
def markerAt (cs : List Char) : Bool :=
  match stripCI ("payload".data) cs with
  | none => false
  | some rest =>
    match rest.dropWhile isJsWhitespace with
    | ':' :: _ => true
    | _ => false

def searchMarkerAux : List Char → Nat → Option Nat
  | [], _ => none
  | c :: rest, i => if markerAt (c :: rest) then some i else searchMarkerAux rest (i + 1)

/-- Model of `logContent.search(/Payload\s*:/i)`: index of the first
position where the marker regex matches, `none` for `-1`. -/
def searchMarker (cs : List Char) : Option Nat :=
  searchMarkerAux cs 0

/-- Model of `cs.indexOf(c, start)`: first index `≥ start` holding `c`. -/
def indexOfFrom (cs : List Char) (c : Char) (start : Nat) : Option Nat :=
  ((cs.drop start).findIdx? (· = c)).map (· + start)

/-- Model of the brace-depth scan of `extractPayloadObject`, run on the
suffix starting at the first `\x7b`: depth is incremented on `\x7b`,
decremented on `\x7d`, and the scan stops when it returns to zero.  The
result is the offset of the matching closing brace relative to the start
of the suffix, `none` if the text ends first (`end === -1`). -/
def braceScan : List Char → Int → Option Nat
  | [], _ => none
  | c :: rest, depth =>
    if c = '{' then (braceScan rest (depth + 1)).map (· + 1)
    else if c = '}' then
      if depth - 1 = 0 then some 0
      else (braceScan rest (depth - 1)).map (· + 1)
    else (braceScan rest depth).map (· + 1)

-- ---------------------------------------------------------------------------
-- JSON values and an executable model of the platform JSON.parse
-- ---------------------------------------------------------------------------

/-- JSON values as produced by `JSON.parse`.  Numbers are restricted to
integers: the core treats payload values opaquely and every numeral in the
inputs considered is an integer. -/
inductive Json where
  | null
  | bool (b : Bool)
  | num (n : Int)
  | str (s : String)
  | arr (elems : List Json)
  | obj (fields : List (String × Json))

/-- Top-level keys, modelling `Object.keys(parsed)` (non-objects give
an empty key list). -/
def Json.topKeys : Json → List String
  | .obj fields => fields.map (·.1)
  | _ => []

def skipJsonWs (cs : List Char) : List Char :=
  cs.dropWhile (fun c => c == ' ' || c == '\t' || c == '\n' || c == '\r')

def escChar (e : Char) : Option Char :=
  if e = '"' then some '"'
  else if e = '\\' then some '\\'
  else if e = '/' then some '/'
  else if e = 'n' then some '\n'
  else if e = 't' then some '\t'
  else if e = 'r' then some '\r'
  else if e = 'b' then some '\x08'
  else if e = 'f' then some '\x0c'
  else none

/-- Reads the body of a JSON string literal (the opening quote already
consumed), returning the decoded characters and the remaining input. -/
def readJsonString : List Char → Except String (List Char × List Char)
  | [] => .error ("Unterminated string in JSON")
  | '\\' :: [] => .error ("Unterminated escape in JSON string")
  | '\\' :: e :: rest2 =>
    (match escChar e with
     | none => .error ("Unsupported escape in JSON string")
     | some ch =>
       match readJsonString rest2 with
       | .ok (s, r) => .ok (ch :: s, r)
       | .error msg => .error msg)
  | c :: rest =>
    if c = '"' then .ok ([], rest)
    else
      match readJsonString rest with
      | .ok (s, r) => .ok (c :: s, r)
      | .error msg => .error msg

def digitsToNat (ds : List Char) : Nat :=
  ds.foldl (fun acc c => acc * 10 + (c.toNat - '0'.toNat)) 0

/-- Reads a JSON integer numeral.  Fractional or exponent forms are outside
this model of `JSON.parse` and are rejected. -/
def readJsonNumber (cs : List Char) : Except String (Int × List Char) :=
  let neg : Bool := match cs with | '-' :: _ => true | _ => false
  let cs1 := match cs with | '-' :: t => t | _ => cs
  let ds := cs1.takeWhile (·.isDigit)
  let rest := cs1.dropWhile (·.isDigit)
  if ds = [] then .error ("Invalid number in JSON")
  else
    match rest with
    | '.' :: _ => .error ("Non-integer JSON numbers are outside this model")
    | 'e' :: _ => .error ("Non-integer JSON numbers are outside this model")
    | 'E' :: _ => .error ("Non-integer JSON numbers are outside this model")
    | _ =>
      let n : Int := Int.ofNat (digitsToNat ds)
      .ok (if neg then -n else n, rest)

mutual

def parseJsonValue : Nat → List Char → Except String (Json × List Char)
  | 0, _ => .error ("JSON parser fuel exhausted")
  | fuel + 1, cs =>
    match skipJsonWs cs with
    | [] => .error ("Unexpected end of JSON input")
    | c :: rest =>
      if c = '"' then
        match readJsonString rest with
        | .ok (s, r) => .ok (.str (String.mk s), r)
        | .error msg => .error msg
      else if c = 't' then
        if ("rue".data).isPrefixOf rest then .ok (.bool true, rest.drop 3)
        else .error ("Invalid JSON literal")
      else if c = 'f' then
        if ("alse".data).isPrefixOf rest then .ok (.bool false, rest.drop 4)
        else .error ("Invalid JSON literal")
      else if c = 'n' then
        if ("ull".data).isPrefixOf rest then .ok (.null, rest.drop 3)
        else .error ("Invalid JSON literal")
      else if c = '{' then
        match skipJsonWs rest with
        | '}' :: r => .ok (.obj [], r)
        | _ =>
          match parseJsonMembers fuel rest with
          | .ok (ms, r) => .ok (.obj ms, r)
          | .error msg => .error msg
      else if c = '[' then
        match skipJsonWs rest with
        | ']' :: r => .ok (.arr [], r)
        | _ =>
          match parseJsonElements fuel rest with
          | .ok (vs, r) => .ok (.arr vs, r)
          | .error msg => .error msg
      else
        match readJsonNumber (c :: rest) with
        | .ok (n, r) => .ok (.num n, r)
        | .error msg => .error msg

def parseJsonMembers : Nat → List Char → Except String (List (String × Json) × List Char)
  | 0, _ => .error ("JSON parser fuel exhausted")
  | fuel + 1, cs =>
    match skipJsonWs cs with
    | '"' :: rest =>
      match readJsonString rest with
      | .error msg => .error msg
      | .ok (k, r1) =>
        match skipJsonWs r1 with
        | ':' :: r2 =>
          match parseJsonValue fuel r2 with
          | .error msg => .error msg
          | .ok (v, r3) =>
            match skipJsonWs r3 with
            | ',' :: r4 =>
              match parseJsonMembers fuel r4 with
              | .ok (ms, r5) => .ok ((String.mk k, v) :: ms, r5)
              | .error msg => .error msg
            | '}' :: r4 => .ok ([(String.mk k, v)], r4)
            | _ => .error ("Expected comma or closing brace in JSON object")
        | _ => .error ("Expected colon in JSON object")
    | _ => .error ("Expected string key in JSON object")

def parseJsonElements : Nat → List Char → Except String (List Json × List Char)
  | 0, _ => .error ("JSON parser fuel exhausted")
  | fuel + 1, cs =>
    match parseJsonValue fuel cs with
    | .error msg => .error msg
    | .ok (v, r1) =>
      match skipJsonWs r1 with
      | ',' :: r2 =>
        match parseJsonElements fuel r2 with
        | .ok (vs, r3) => .ok (v :: vs, r3)
        | .error msg => .error msg
      | ']' :: r2 => .ok ([v], r2)
      | _ => .error ("Expected comma or closing bracket in JSON array")

end

/-- Executable model of the platform `JSON.parse` on the JSON fragment the
development evaluates concretely (objects, arrays, strings with simple
escapes, integer numerals, booleans, null). -/
def jsonParse (cs : List Char) : Except String Json :=
  match parseJsonValue (cs.length + 1) cs with
  | .ok (v, rest) =>
    if skipJsonWs rest = [] then .ok v
    else .error ("Unexpected non-whitespace character after JSON")
  | .error e => .error e

/-- Model of `extractPayloadObject(logContent)`.  `parse` stands for the
platform `JSON.parse`, whose rejection message feeds the catch clause. -/
def extractPayloadObject (parse : List Char → Except String Json)
    (logContent : List Char) : ToolResponse (Option Json) :=
  match searchMarker logContent with
  | none => buildResponse none ("No 'Payload:' marker found in log content.")
  | some payloadIdx =>
    match indexOfFrom logContent '{' payloadIdx with
    | none => buildResponse none ("'Payload:' found but no '\x7b' follows it.")
    | some braceStart =>
      match braceScan (logContent.drop braceStart) 0 with
      | none => buildError ("Found 'Payload: \x7b' but could not find matching closing brace.") none
      | some relEnd =>
        let rawMatch := (logContent.drop braceStart).take (relEnd + 1)
        match parse rawMatch with
        | .ok parsed =>
          buildResponse (some parsed)
            ("Payload object extracted successfully. Keys: " ++ String.intercalate (", ") parsed.topKeys ++ ".")
        | .error msg => buildError ("Failed to extract payload object: " ++ msg) none

-- ---------------------------------------------------------------------------
-- Branch Matcher (packages/github src/lib/branches.ts)
-- ---------------------------------------------------------------------------

structure TaggedBranch where
  name : String
  repo : String
deriving DecidableEq, Repr

structure BranchMatch where
  jiraId : String
  branchName : String
  repo : String
deriving DecidableEq, Repr

/-- Is `c` one of the delimiter characters of the regex class `[/_-]`? -/
def isDelim (c : Char) : Bool :=
  c == '/' || c == '_' || c == '-'

/-- Splits an identifier at its first hyphen, modelling
`id.replace("-", "[-_]??")` (JavaScript `replace` with a string pattern
replaces only the first occurrence): the part before the first hyphen, and
the part after it when a hyphen exists. -/
def splitFirstHyphen : List Char → List Char × Option (List Char)
  | [] => ([], none)
  | c :: rest =>
    if c = '-' then ([], some rest)
    else
      let (a, b) := splitFirstHyphen rest
      (c :: a, b)

/-- After-the-token part `([/_-]|$)` of the generated regex: the remainder
must be empty or start with a delimiter. -/
def boundaryAfter : List Char → Bool
  | [] => true
  | c :: _ => isDelim c

/-- Does the core of the generated pattern match at the head of `s`?  The
core is the identifier's first-hyphen prefix, then an optional single `-`
or `_` (the lazily-optional `[-_]??`), then the rest of the identifier,
followed by the `([/_-]|$)` boundary.  Patterns are matched
case-insensitively; `alow`/`blow` are pre-lowered. -/
def coreMatch (alow : List Char) (blow : Option (List Char)) (s : List Char) : Bool :=
  match stripCI alow s with
  | none => false
  | some rem =>
    match blow with
    | none => boundaryAfter rem
    | some b =>
      (match stripCI b rem with
       | some rem2 => boundaryAfter rem2
       | none => false)
      ||
      (match rem with
       | c :: rest =>
         (c == '-' || c == '_') &&
           (match stripCI b rest with
            | some rem2 => boundaryAfter rem2
            | none => false)
       | [] => false)

/-- Searches every position of `s` for a match of the generated pattern;
`atBoundary` records whether the current position is the start of the
string or preceded by a delimiter, i.e. whether `(^|[/_-])` can match. -/
def patSearch (alow : List Char) (blow : Option (List Char)) :
    List Char → Bool → Bool
  | s, atBoundary =>
    (atBoundary && coreMatch alow blow s) ||
      (match s with
       | [] => false
       | c :: rest => patSearch alow blow rest (isDelim c))

/-- Model of `regex.test(name)` for the regex
`(^|[/_-])ID'([/_-]|$)` with flag `i`, where `ID'` is `id` with its first
hyphen replaced by `[-_]??`.  Faithful for identifiers free of other regex
metacharacters (Jira keys: letters, digits, hyphens). -/
def patMatches (id : List Char) (name : List Char) : Bool :=
  let (a, b) := splitFirstHyphen id
  patSearch (a.map Char.toLower) (b.map (List.map Char.toLower)) name true

/-- Model of `findBranchesMatchingJiraIds(branches, jiraIds)`. -/
def findBranchesMatchingJiraIds (branches : List TaggedBranch)
    (jiraIds : List String) : List BranchMatch :=
  if jiraIds = [] ∨ branches = [] then []
  else
    branches.flatMap (fun branch =>
      jiraIds.filterMap (fun id =>
        if patMatches id.data branch.name.data then
          some { jiraId := id, branchName := branch.name, repo := branch.repo }
        else none))

-- ---------------------------------------------------------------------------
-- Jira / GitHub domain records (only the fields the core reads; the long
-- tail of pass-through custom fields is opaque to the pipeline)
-- ---------------------------------------------------------------------------

structure JiraStatus where
  name : String
deriving DecidableEq, Repr

structure JiraParent where
  key : String
deriving DecidableEq, Repr

structure JiraIssueFields where
  summary : String
  status : Option JiraStatus
  parent : Option JiraParent
deriving DecidableEq, Repr

structure JiraIssue where
  id : String
  key : String
  fields : JiraIssueFields
deriving DecidableEq, Repr

structure JiraFixVersion where
  name : String
  released : Bool
deriving DecidableEq, Repr

structure GithubRepo where
  name : String
deriving DecidableEq, Repr

structure GithubBranch where
  name : String
deriving DecidableEq, Repr

structure WorkflowRun where
  id : Nat
deriving DecidableEq, Repr

structure RunsData where
  runs : List WorkflowRun
deriving DecidableEq, Repr

-- ---------------------------------------------------------------------------
-- Step payload types of the six pipeline steps
-- ---------------------------------------------------------------------------

structure FixData where
  version : String
  released : Bool
deriving DecidableEq, Repr

structure IssuesData where
  issues : List JiraIssue
  total : Nat
deriving DecidableEq, Repr

structure FeaturesData where
  features : List JiraIssue
  uniqueParentKeys : List String
deriving DecidableEq, Repr

structure BranchData where
  matches' : List BranchMatch
  repos : List String
  searchedRepos : Nat
deriving DecidableEq, Repr

structure LogDlData where
  runId : Nat
  repo : String
  entriesFound : Nat
  deployTriggerFile : String
deriving DecidableEq, Repr

structure PayloadData where
  payload : Json
  rawMatch : String

structure Steps where
  fixVersionResolution : StepResult FixData
  issueSearch : StepResult IssuesData
  parentFeatures : StepResult FeaturesData
  branchDiscovery : StepResult BranchData
  logDownload : StepResult LogDlData
  payloadExtraction : StepResult PayloadData

-- ---------------------------------------------------------------------------
-- Report assembly (buildFinalReport and its derived fields)
-- ---------------------------------------------------------------------------

/-- Statuses of the six step slots in declaration order, which is the
order `Object.values(steps)` enumerates them. -/
def stepStatuses (steps : Steps) : List StepStatus :=
  [steps.fixVersionResolution.status, steps.issueSearch.status,
   steps.parentFeatures.status, steps.branchDiscovery.status,
   steps.logDownload.status, steps.payloadExtraction.status]

/-- Derived overall status.  The source's skipped-step check excludes the
`fixVersionResolution` slot by object identity (`s !== steps.fixVersionResolution`);
since every slot holds a separately constructed result object, that is the
positional exclusion of the first slot modelled here. -/
def overallStatusOf (steps : Steps) : String :=
  if steps.fixVersionResolution.status = .failed ∨ steps.issueSearch.status = .failed then
    "failed"
  else if 0 < (stepStatuses steps).count .failed ∨
      ((stepStatuses steps).drop 1).any (· == .skipped) then
    "partial"
  else
    "complete"

/-- First-occurrence deduplication with an accumulator of already-seen
elements, modelling `[...new Set(xs)]` (a `Set` iterates in insertion
order). -/
def dedupFirstAux {α : Type} [DecidableEq α] (seen : List α) : List α → List α
  | [] => []
  | x :: xs =>
    if x ∈ seen then dedupFirstAux seen xs
    else x :: dedupFirstAux (x :: seen) xs

def dedupFirst {α : Type} [DecidableEq α] (l : List α) : List α :=
  dedupFirstAux [] l

/-- The parent key the grouping logic considers present: `parent?.key`
filtered through JavaScript truthiness (`undefined` and `""` are falsy). -/
def truthyParentKey (i : JiraIssue) : Option String :=
  match i.fields.parent with
  | some p => if p.key = "" then none else some p.key
  | none => none

/-- Distinct truthy parent keys in order of first appearance; used both by
step 3 and by the report grouping. -/
def parentKeysOf (issues : List JiraIssue) : List String :=
  dedupFirst (issues.filterMap truthyParentKey)

/-- Lookup in the `featureMap` built with `new Map(features.map(f => [f.key, f]))`;
for duplicate keys a JavaScript `Map` keeps the last insertion. -/
def featureLookup (features : List JiraIssue) (key : String) : Option JiraIssue :=
  features.reverse.find? (fun f => f.key = key)

def issuesWithParent (issues : List JiraIssue) (key : String) : List JiraIssue :=
  issues.filter (fun i => truthyParentKey i = some key)

def unparentedOf (issues : List JiraIssue) : List JiraIssue :=
  issues.filter (fun i => truthyParentKey i = none)

structure FeatureGroup where
  featureKey : String
  featureSummary : String
  featureStatus : String
  issues : List JiraIssue

def featureGroupsOf (features : List JiraIssue) (issues : List JiraIssue) :
    List FeatureGroup :=
  (parentKeysOf issues).map (fun key =>
    let feature := featureLookup features key
    { featureKey := key
      featureSummary := (feature.map (fun f => f.fields.summary)).getD ("(summary unavailable)")
      featureStatus := ((feature.bind (fun f => f.fields.status)).map (fun st => st.name)).getD ("unknown")
      issues := issuesWithParent issues key })

structure ReportBlock where
  summary : String
  issuesByFeature : List FeatureGroup
  unparentedIssues : List JiraIssue
  branchMatches : List BranchMatch
  deployPayload : Json

/-- The `verificationToken` and `timestamp` fields of the source record are
crypto/clock externals and are omitted from the model. -/
structure ReleaseSummaryReport where
  fixVersion : String
  projectKey : String
  overallStatus : String
  steps : Steps
  report : Option ReportBlock

def branchMatchesOf (steps : Steps) : List BranchMatch :=
  match steps.branchDiscovery.status, steps.branchDiscovery.data with
  | .success, some d => d.matches'
  | _, _ => []

/-- The empty object `{}` used when payload extraction did not succeed is
modelled as `Json.obj []`. -/
def deployPayloadOf (steps : Steps) : Json :=
  match steps.payloadExtraction.status, steps.payloadExtraction.data with
  | .success, some d => d.payload
  | _, _ => Json.obj []

/-- The feature list the report grouping consults: step 3's data when that
step succeeded, otherwise empty. -/
def featuresOf (steps : Steps) : List JiraIssue :=
  match steps.parentFeatures.status, steps.parentFeatures.data with
  | .success, some d => d.features
  | _, _ => []

def buildReportBlock (steps : Steps) (resolvedVersion projectKey : String)
    (issues : List JiraIssue) : ReportBlock :=
  let issuesByFeature := featureGroupsOf (featuresOf steps) issues
  { summary :=
      "Fix version " ++ resolvedVersion ++ " (" ++ projectKey ++ "): " ++
        toString issues.length ++ " issue(s) across " ++
        toString issuesByFeature.length ++ " parent feature(s). Branch matches: " ++
        (match steps.branchDiscovery.status, steps.branchDiscovery.data with
         | .success, some d => toString d.matches'.length
         | _, _ => "n/a") ++
        ". Deployment payload: " ++
        (match steps.payloadExtraction.status with
         | .success => "extracted"
         | _ => "unavailable") ++ "."
    issuesByFeature := issuesByFeature
    unparentedIssues := unparentedOf issues
    branchMatches := branchMatchesOf steps
    deployPayload := deployPayloadOf steps }

/-- Model of `buildFinalReport(steps, resolvedVersion, projectKey, issues)`. -/
def buildFinalReport (steps : Steps) (resolvedVersion projectKey : String)
    (issues : List JiraIssue) : ToolResponse ReleaseSummaryReport :=
  let overallStatus := overallStatusOf steps
  let report : Option ReportBlock :=
    if 0 < issues.length then
      some (buildReportBlock steps resolvedVersion projectKey issues)
    else none
  let result : ReleaseSummaryReport :=
    { fixVersion := resolvedVersion, projectKey := projectKey,
      overallStatus := overallStatus, steps := steps, report := report }
  buildResponse result
    ((report.map (fun r => r.summary)).getD
      ("Release summary for " ++ resolvedVersion ++ " (" ++ overallStatus ++ ")."))

-- ---------------------------------------------------------------------------
-- The pipeline environment: outcomes of the external collaborators of one
-- invocation, plus the clock readings around each step
-- ---------------------------------------------------------------------------

structure Env where
  jiraProjectKey : String
  fixVersionLookup : ToolResponse (Option JiraFixVersion)
  searchIssues : String → ToolResponse IssuesData
  bulkGetIssues : List String → ToolResponse (List JiraIssue)
  listRepos : ToolResponse (List GithubRepo)
  listBranches : String → ToolResponse (List GithubBranch)
  listWorkflowRuns : ToolResponse RunsData
  logsA : Nat → Except String (ToolResponse (List LogEntry))
  logsB : Nat → Except String (ToolResponse (List LogEntry))
  jsonParse : List Char → Except String Json
  t1 : Nat × Nat
  t2 : Nat × Nat
  t3 : Nat × Nat
  t4 : Nat × Nat
  t5 : Nat × Nat
  t6 : Nat × Nat

structure AppReleaseSummaryInput where
  fixVersion : Option String
  projectKey : Option String
  forceLogRefresh : Bool
  workflowRunId : Option Nat

-- ---------------------------------------------------------------------------
-- The six step bodies (the async closures passed to runStep)
-- ---------------------------------------------------------------------------

def resolveFixVersion (env : Env) (projectKey : String) : Except String FixData :=
  let r := env.fixVersionLookup
  match r.success, r.data with
  | true, some ver => .ok { version := ver.name, released := ver.released }
  | _, _ =>
    .error ("Could not resolve an unreleased fix version for project " ++
      projectKey ++ ". " ++ r.summary)

/-- Step 1 body.  `if (input.fixVersion)` is a JavaScript truthiness test,
so an empty provided string also falls through to auto-resolution. -/
def step1Body (env : Env) (input : AppReleaseSummaryInput)
    (projectKey : String) : Except String FixData :=
  match input.fixVersion with
  | some v => if v = "" then resolveFixVersion env projectKey
              else .ok { version := v, released := false }
  | none => resolveFixVersion env projectKey

def buildJql (resolvedVersion projectKey : String) : String :=
  "fixVersion = \"" ++ resolvedVersion ++ "\" AND issuetype != Sub-task AND project = \"" ++
    projectKey ++ "\" ORDER BY created ASC"

def step2Body (env : Env) (resolvedVersion projectKey : String) :
    Except String IssuesData :=
  let r := env.searchIssues (buildJql resolvedVersion projectKey)
  if r.success then .ok { issues := r.data.issues, total := r.data.total }
  else .error r.summary

def step3Body (env : Env) (issues : List JiraIssue) : Except String FeaturesData :=
  let parentKeys := parentKeysOf issues
  if parentKeys = [] then .ok { features := [], uniqueParentKeys := [] }
  else
    let r := env.bulkGetIssues parentKeys
    if r.success then .ok { features := r.data, uniqueParentKeys := parentKeys }
    else .error r.summary

/-- Step 4 body.  A failed per-repository branch listing contributes an
empty list instead of aborting the step. -/
def step4Body (env : Env) (issues : List JiraIssue) : Except String BranchData :=
  let r := env.listRepos
  if r.success then
    let repos := r.data
    let issueKeys := issues.map (fun i => i.key)
    let branchLists := repos.map (fun repo =>
      let br := env.listBranches repo.name
      if br.success then br.data.map (fun b => TaggedBranch.mk b.name repo.name)
      else [])
    let allBranches := branchLists.flatten
    .ok { matches' := findBranchesMatchingJiraIds allBranches issueKeys,
          repos := repos.map (fun rp => rp.name),
          searchedRepos := repos.length }
  else .error r.summary

/-- Target-repository selection after branch discovery.  A success result
produced by `runStep` always carries data, so the `success`-with-no-data
row is unreachable from the pipeline. -/
def candidateRepos (s4 : StepResult BranchData) : List String :=
  match s4.status, s4.data with
  | .success, some d =>
    if 0 < d.matches'.length then dedupFirst (d.matches'.map (fun m => m.repo))
    else d.repos.take 1
  | _, _ => []

/-- Step 5 body.  `if (!runId || input.forceLogRefresh)` re-resolves the
run when the caller-supplied id is absent or `0` (both falsy) or a refresh
is forced.  The download-and-extract chain is the environment's `logsA`:
an outer `.error` is a rejected download, the inner response is the zip
extraction outcome. -/
def step5Body (env : Env) (input : AppReleaseSummaryInput)
    (targetRepo : String) : Except String LogDlData :=
  let needResolve : Bool :=
    (match input.workflowRunId with
     | none => true
     | some rid => rid == 0) || input.forceLogRefresh
  let runIdE : Except String Nat :=
    if needResolve then
      let rr := env.listWorkflowRuns
      match rr.success, rr.data.runs with
      | true, run0 :: _ => .ok run0.id
      | _, _ => .error ("No completed workflow runs found for " ++ targetRepo ++ ".")
    else .ok ((input.workflowRunId).getD 0)
  match runIdE with
  | .error e => .error e
  | .ok runId =>
    match env.logsA runId with
    | .error e => .error e
    | .ok extracted =>
      if extracted.success then
        match (findDeployTriggerStageLog extracted.data).data with
        | some deployLog =>
          .ok { runId := runId, repo := targetRepo,
                entriesFound := extracted.data.length,
                deployTriggerFile := deployLog.fileName }
        | none => .error ("No 'Deploy Trigger Stage' log file found in the run's artifacts.")
      else .error extracted.summary

/-- Step 6 body (payload extraction).  The archive is re-downloaded and
re-extracted (`logsB`), the deploy log re-located, and the payload parsed;
the 500-character `rawMatch` excerpt starts at the marker. -/
def step6Body (env : Env) (_targetRepo : String) (s5 : StepResult LogDlData) :
    Except String PayloadData :=
  let runId := ((s5.data).map (fun d => d.runId)).getD 0
  match env.logsB runId with
  | .error e => .error e
  | .ok extracted =>
    if extracted.success then
      match (findDeployTriggerStageLog extracted.data).data with
      | none => .error ("Deploy Trigger Stage log not found during payload extraction.")
      | some deployLog =>
        let pr := extractPayloadObject env.jsonParse deployLog.content.data
        match pr.success, pr.data with
        | true, some payload =>
          let rawMatch :=
            match searchMarker deployLog.content.data with
            | some i => String.mk ((deployLog.content.data.drop i).take 500)
            | none => ""
          .ok { payload := payload, rawMatch := rawMatch }
        | _, _ => .error pr.summary
    else .error extracted.summary

-- ---------------------------------------------------------------------------
-- The release-summary pipeline (runAppReleaseSummary)
-- ---------------------------------------------------------------------------

/-- Model of `runAppReleaseSummary(input, jiraConfig, githubConfig)` as a
function of the collaborator outcomes collected in `env`.
`targetRepo = matchedRepos[0]` followed by `if (!targetRepo)` treats an
absent element and an empty repo name alike, which `head?.getD ""` models. -/
def runAppReleaseSummary (env : Env) (input : AppReleaseSummaryInput) :
    ToolResponse ReleaseSummaryReport :=
  let projectKey := (input.projectKey).getD env.jiraProjectKey
  let s1 := runStep ("fixVersionResolution") (step1Body env input projectKey) env.t1.1 env.t1.2
  let resolvedVersion :=
    if s1.status = .success then ((s1.data).map (fun d => d.version)).getD ""
    else (input.fixVersion).getD ""
  if s1.status = .failed then
    buildFinalReport
      { fixVersionResolution := s1, issueSearch := skipStep,
        parentFeatures := skipStep, branchDiscovery := skipStep,
        logDownload := skipStep, payloadExtraction := skipStep }
      resolvedVersion projectKey []
  else
    let s2 := runStep ("issueSearch") (step2Body env resolvedVersion projectKey) env.t2.1 env.t2.2
    if s2.status = .failed then
      buildFinalReport
        { fixVersionResolution := s1, issueSearch := s2,
          parentFeatures := skipStep, branchDiscovery := skipStep,
          logDownload := skipStep, payloadExtraction := skipStep }
        resolvedVersion projectKey []
    else
      let issues := ((s2.data).map (fun d => d.issues)).getD []
      let s3 := runStep ("parentFeatures") (step3Body env issues) env.t3.1 env.t3.2
      let s4 := runStep ("branchDiscovery") (step4Body env issues) env.t4.1 env.t4.2
      let matchedRepos := candidateRepos s4
      let targetRepo := matchedRepos.head?.getD ""
      if targetRepo = "" then
        buildFinalReport
          { fixVersionResolution := s1, issueSearch := s2,
            parentFeatures := s3, branchDiscovery := s4,
            logDownload := skipStep, payloadExtraction := skipStep }
          resolvedVersion projectKey issues
      else
        let s5 := runStep ("logDownload") (step5Body env input targetRepo) env.t5.1 env.t5.2
        if s5.status = .failed then
          buildFinalReport
            { fixVersionResolution := s1, issueSearch := s2,
              parentFeatures := s3, branchDiscovery := s4,
              logDownload := s5, payloadExtraction := skipStep }
            resolvedVersion projectKey issues
        else
          let s6 := runStep ("payloadExtraction") (step6Body env targetRepo s5) env.t6.1 env.t6.2
          buildFinalReport
            { fixVersionResolution := s1, issueSearch := s2,
              parentFeatures := s3, branchDiscovery := s4,
              logDownload := s5, payloadExtraction := s6 }
            resolvedVersion projectKey issues

-- ---------------------------------------------------------------------------
-- Auxiliary predicates for the theorems
-- ---------------------------------------------------------------------------

/-- The status-level content of `overallStatusOf` (which reads only the six
statuses). -/
def overallFromStatuses (a b c d e f : StepStatus) : String :=
  if a = .failed ∨ b = .failed then "failed"
  else if 0 < ([a, b, c, d, e, f].count .failed) ∨
      ([b, c, d, e, f].any (· == .skipped)) then "partial"
  else "complete"

/-- The status combinations a finished pipeline invocation can leave in its
steps table: step 1 failed (everything else untouched), step 2 failed
(steps 3-6 untouched), or steps 1-2 succeeded, steps 3 and 4 each ran to
success or failure, and steps 5/6 were skipped together, or step 5 failed
with step 6 skipped, or step 5 succeeded and step 6 ran. -/
def ReachableStatuses (a b c d e f : StepStatus) : Prop :=
  (a = .failed ∧ b = .skipped ∧ c = .skipped ∧ d = .skipped ∧ e = .skipped ∧ f = .skipped) ∨
  (a = .success ∧ b = .failed ∧ c = .skipped ∧ d = .skipped ∧ e = .skipped ∧ f = .skipped) ∨
  (a = .success ∧ b = .success ∧ (c = .success ∨ c = .failed) ∧ (d = .success ∨ d = .failed) ∧
    ((e = .skipped ∧ f = .skipped) ∨ (e = .failed ∧ f = .skipped) ∨
     (e = .success ∧ (f = .success ∨ f = .failed))))

/-- A step result as produced by `runStep`/`skipStep`/`pendingStep`: data
present exactly on success, an error message exactly on failure. -/
def StepResultWF {T : Type} (r : StepResult T) : Prop :=
  (r.status = .success ↔ r.data.isSome) ∧ (r.status = .failed ↔ r.error.isSome)

def StepsWF (steps : Steps) : Prop :=
  StepResultWF steps.fixVersionResolution ∧ StepResultWF steps.issueSearch ∧
  StepResultWF steps.parentFeatures ∧ StepResultWF steps.branchDiscovery ∧
  StepResultWF steps.logDownload ∧ StepResultWF steps.payloadExtraction

-- ---------------------------------------------------------------------------
-- Concrete environments and inputs used in closed evaluations
-- ---------------------------------------------------------------------------

/-- A benign environment: every collaborator answers successfully with the
smallest sensible payload. -/
def envUnit : Env :=
  { jiraProjectKey := "PROJ"
    fixVersionLookup := buildResponse (some { name := "1.0", released := false }) ("ok")
    searchIssues := fun _ => buildResponse { issues := [], total := 0 } ("ok")
    bulkGetIssues := fun _ => buildResponse [] ("ok")
    listRepos := buildResponse [] ("ok")
    listBranches := fun _ => buildResponse [] ("ok")
    listWorkflowRuns := buildResponse { runs := [{ id := 7 }] } ("ok")
    logsA := fun _ => .ok (buildResponse [] ("ok"))
    logsB := fun _ => .ok (buildResponse [] ("ok"))
    jsonParse := jsonParse
    t1 := (0, 1), t2 := (0, 1), t3 := (0, 1)
    t4 := (0, 1), t5 := (0, 1), t6 := (0, 1) }

def inputAuto : AppReleaseSummaryInput :=
  { fixVersion := none, projectKey := none,
    forceLogRefresh := false, workflowRunId := none }

/-- Version resolution rejects: step 1 fails. -/
def envStep1Fail : Env :=
  { envUnit with fixVersionLookup := buildError ("Jira down") none }

/-- Issue search rejects: step 2 fails. -/
def envStep2Fail : Env :=
  { envUnit with searchIssues := fun _ => buildError ("bad jql") { issues := [], total := 0 } }

/-- Issue search succeeds with zero issues; all collaborators succeed. -/
def envNoIssues : Env := envUnit

/-- One issue, one repo, one matching branch, a deploy log whose payload
parses: every step succeeds. -/
def envHappy : Env :=
  { envUnit with
    searchIssues := fun _ =>
      buildResponse
        { issues := [{ id := "1", key := "PROJ-1",
                       fields := { summary := "one", status := some { name := "Done" },
                                   parent := some { key := "PROJ-100" } } }],
          total := 1 } ("ok")
    bulkGetIssues := fun _ =>
      buildResponse [{ id := "100", key := "PROJ-100",
                       fields := { summary := "Feature A",
                                   status := some { name := "In Progress" },
                                   parent := none } }] ("ok")
    listRepos := buildResponse [{ name := "app-repo" }] ("ok")
    listBranches := fun _ => buildResponse [{ name := "feature/PROJ-1-x" }] ("ok")
    logsA := fun _ =>
      .ok (buildResponse [{ fileName := "Deploy Trigger Stage.txt",
                            content := "Payload: \x7b\"a\":1\x7d" }] ("ok"))
    logsB := fun _ =>
      .ok (buildResponse [{ fileName := "Deploy Trigger Stage.txt",
                            content := "Payload: \x7b\"a\":1\x7d" }] ("ok")) }

/-- Like `envHappy` but the deploy-log archive chain rejects on the first
download, so step 5 fails. -/
def envLogFail : Env :=
  { envHappy with logsA := fun _ => .error ("download refused") }

/-- The worked payload text of the spec's extraction example. -/
def c4text : String :=
  "stage log line Payload: \x7b\"a\":1,\"b\":\x7b\"c\":2\x7d\x7d trailing text"

-- ---------------------------------------------------------------------------
-- Theorems.  Helper lemmas first, then one theorem per claim (C1-C10).
-- ---------------------------------------------------------------------------

theorem runStep_ok {T : Type} (n : String) (v : T) (a b : Nat) :
    runStep n (.ok v) a b =
      { status := .success, data := some v, error := none, durationMs := b - a } := rfl

theorem runStep_err {T : Type} (n : String) (m : String) (a b : Nat) :
    runStep n (.error m : Except String T) a b =
      { status := .failed, data := none, error := some m, durationMs := b - a } := rfl

theorem runStep_status_or {T : Type} (n : String) (fn : Except String T) (a b : Nat) :
    (runStep n fn a b).status = .success ∨ (runStep n fn a b).status = .failed := by
  cases fn
  · exact Or.inr rfl
  · exact Or.inl rfl

theorem runStep_success_data {T : Type} (n : String) (fn : Except String T) (a b : Nat)
    (h : (runStep n fn a b).status = .success) :
    ∃ v, fn = .ok v ∧ (runStep n fn a b).data = some v := by
  cases fn with
  | error m => exact absurd h (by simp [runStep])
  | ok v => exact ⟨v, rfl, rfl⟩

theorem buildFinalReport_data_steps (st : Steps) (v k : String) (iss : List JiraIssue) :
    (buildFinalReport st v k iss).data.steps = st := rfl

theorem buildFinalReport_data_overall (st : Steps) (v k : String) (iss : List JiraIssue) :
    (buildFinalReport st v k iss).data.overallStatus = overallStatusOf st := rfl

theorem buildFinalReport_data_report (st : Steps) (v k : String) (iss : List JiraIssue) :
    (buildFinalReport st v k iss).data.report =
      (if 0 < iss.length then some (buildReportBlock st v k iss) else none) := rfl

theorem overallStatusOf_eq_fromStatuses (st : Steps) :
    overallStatusOf st = overallFromStatuses
      st.fixVersionResolution.status st.issueSearch.status st.parentFeatures.status
      st.branchDiscovery.status st.logDownload.status st.payloadExtraction.status := rfl

/-- C2: `runStep` always returns a `StepResult` (it is a total function of
the work's outcome): the status is `success` carrying the work's return
value exactly when the work resolves, any rejection is converted into a
`failed` result carrying the error's message, and in both cases
`durationMs` is the elapsed difference of the surrounding clock readings
(a natural number, hence nonnegative). -/
theorem runStep_spec {T : Type} (name : String) (fn : Except String T)
    (start stop : Nat) :
    ((runStep name fn start stop).status = .success ↔ ∃ v, fn = .ok v) ∧
    (∀ v, fn = .ok v →
      (runStep name fn start stop).data = some v ∧
      (runStep name fn start stop).error = none) ∧
    (∀ msg, fn = .error msg →
      (runStep name fn start stop).status = .failed ∧
      (runStep name fn start stop).error = some msg ∧
      (runStep name fn start stop).data = none) ∧
    (runStep name fn start stop).durationMs = stop - start := by
  cases fn <;> simp [runStep]

/-- Closed instance of `runStep_spec` at concrete inputs. -/
theorem runStep_spec_witness :
    (runStep ("w") (.ok (42 : Nat)) 3 10).data = some 42 ∧
    (runStep ("w") (Except.error ("boom") : Except String Nat) 3 10).status = .failed := by
  constructor
  · exact ((runStep_spec ("w") (.ok (42 : Nat)) 3 10).2.1 42 rfl).1
  · exact ((runStep_spec ("w") (Except.error ("boom") : Except String Nat) 3 10).2.2.1
      ("boom") rfl).1

/-- C8: report assembly is total.  For every combination of well-formed
step outcomes and every issue list, `buildFinalReport` returns a
well-formed response: a success envelope, the steps passed through
unchanged, the derived overall status (one of the three legal values), and
a report block exactly when the issue list is nonempty. -/
theorem buildFinalReport_total (steps : Steps) (resolvedVersion projectKey : String)
    (issues : List JiraIssue) (hwf : StepsWF steps) :
    (buildFinalReport steps resolvedVersion projectKey issues).success = true ∧
    (buildFinalReport steps resolvedVersion projectKey issues).data.steps = steps ∧
    (buildFinalReport steps resolvedVersion projectKey issues).data.fixVersion = resolvedVersion ∧
    (buildFinalReport steps resolvedVersion projectKey issues).data.projectKey = projectKey ∧
    (buildFinalReport steps resolvedVersion projectKey issues).data.overallStatus =
      overallStatusOf steps ∧
    ((buildFinalReport steps resolvedVersion projectKey issues).data.overallStatus = "complete" ∨
     (buildFinalReport steps resolvedVersion projectKey issues).data.overallStatus = "partial" ∨
     (buildFinalReport steps resolvedVersion projectKey issues).data.overallStatus = "failed") ∧
    ((buildFinalReport steps resolvedVersion projectKey issues).data.report.isSome ↔
      issues ≠ []) := by
  refine ⟨rfl, rfl, rfl, rfl, rfl, ?_, ?_⟩
  · rw [buildFinalReport_data_overall]
    unfold overallStatusOf
    split
    · exact Or.inr (Or.inr rfl)
    · split
      · exact Or.inr (Or.inl rfl)
      · exact Or.inl rfl
  · rw [buildFinalReport_data_report]
    cases issues <;> simp

/-- Closed instance of `buildFinalReport_total` on an all-skipped table. -/
theorem buildFinalReport_total_witness :
    (buildFinalReport
      { fixVersionResolution := skipStep, issueSearch := skipStep,
        parentFeatures := skipStep, branchDiscovery := skipStep,
        logDownload := skipStep, payloadExtraction := skipStep }
      ("1.0") ("PROJ") []).success = true := by
  exact (buildFinalReport_total _ ("1.0") ("PROJ") []
    (by refine ⟨?_, ?_, ?_, ?_, ?_, ?_⟩ <;> exact ⟨by simp [skipStep], by simp [skipStep]⟩)).1

theorem findDeploy_data_eq (entries : List LogEntry) :
    (findDeployTriggerStageLog entries).data = entries.find? isDeployName := by
  unfold findDeployTriggerStageLog
  cases h : entries.find? isDeployName <;> simp [h, buildResponse]

/-- C9: the Deploy-Log Locator returns a success response whose data is
the first entry, in list order, whose file name contains
"deploy trigger stage" case-insensitively; with no qualifying entry the
data is `none` (still not an error).  On the three-entry example list it
returns the second entry, whatever the marker's case variation. -/
theorem findDeployTriggerStageLog_spec :
    (∀ entries, (findDeployTriggerStageLog entries).success = true) ∧
    (∀ entries, (findDeployTriggerStageLog entries).data = none →
      ∀ e ∈ entries, isDeployName e = false) ∧
    (∀ entries e, (findDeployTriggerStageLog entries).data = some e →
      ∃ pre suf, entries = pre ++ e :: suf ∧ isDeployName e = true ∧
        ∀ x ∈ pre, isDeployName x = false) ∧
    ((findDeployTriggerStageLog
        [{ fileName := "Build.txt", content := "c1" },
         { fileName := "Deploy Trigger Stage.txt", content := "c2" },
         { fileName := "Notify.txt", content := "c3" }]).data =
      some { fileName := "Deploy Trigger Stage.txt", content := "c2" }) ∧
    ((findDeployTriggerStageLog
        [{ fileName := "Build.txt", content := "c1" },
         { fileName := "dEpLoY tRiGgEr STAGE.txt", content := "c2" },
         { fileName := "Notify.txt", content := "c3" }]).data =
      some { fileName := "dEpLoY tRiGgEr STAGE.txt", content := "c2" }) := by
  refine ⟨?_, ?_, ?_, rfl, rfl⟩
  · intro entries
    unfold findDeployTriggerStageLog
    cases h : entries.find? isDeployName <;> simp [h, buildResponse]
  · intro entries h e he
    rw [findDeploy_data_eq] at h
    have := List.find?_eq_none.mp h e he
    simpa using this
  · intro entries e h
    rw [findDeploy_data_eq] at h
    induction entries with
    | nil => simp at h
    | cons x xs ih =>
      by_cases hx : isDeployName x = true
      · rw [List.find?_cons_of_pos _ hx] at h
        obtain rfl : x = e := by simpa using h
        exact ⟨[], xs, rfl, hx, by simp⟩
      · rw [List.find?_cons_of_neg _ (by simpa using hx)] at h
        obtain ⟨pre, suf, hsplit, he, hpre⟩ := ih h
        refine ⟨x :: pre, suf, by simp [hsplit], he, ?_⟩
        intro y hy
        rcases List.mem_cons.mp hy with rfl | hy2
        · simpa using hx
        · exact hpre y hy2

/-- Closed instance of `findDeployTriggerStageLog_spec` on the example
list. -/
theorem findDeployTriggerStageLog_spec_witness :
    ∃ pre suf,
      [({ fileName := "Build.txt", content := "c1" } : LogEntry),
       { fileName := "Deploy Trigger Stage.txt", content := "c2" },
       { fileName := "Notify.txt", content := "c3" }] =
        pre ++ ({ fileName := "Deploy Trigger Stage.txt", content := "c2" } : LogEntry) :: suf ∧
      isDeployName { fileName := "Deploy Trigger Stage.txt", content := "c2" } = true ∧
      ∀ x ∈ pre, isDeployName x = false := by
  exact findDeployTriggerStageLog_spec.2.2.1
    [{ fileName := "Build.txt", content := "c1" },
     { fileName := "Deploy Trigger Stage.txt", content := "c2" },
     { fileName := "Notify.txt", content := "c3" }]
    { fileName := "Deploy Trigger Stage.txt", content := "c2" } rfl

/-- C4: the Payload Extractor realises the four-outcome algorithm, for any
behaviour of the platform JSON parser: no marker gives a non-error
not-found result; a marker with no following opening brace gives the
distinct non-error no-object result; an unbalanced brace scan is a hard
error; otherwise the brace-delimited slice is parsed, a parse failure
being a hard error and a parse success yielding the parsed object.  On
the worked example text the extractor yields the parsed object
`\x7ba: 1, b: \x7bc: 2\x7d\x7d`. -/
theorem extractPayloadObject_spec :
    (∀ parse cs, searchMarker cs = none →
      extractPayloadObject parse cs =
        buildResponse none ("No 'Payload:' marker found in log content.")) ∧
    (∀ parse cs i, searchMarker cs = some i → indexOfFrom cs '{' i = none →
      extractPayloadObject parse cs =
        buildResponse none ("'Payload:' found but no '\x7b' follows it.")) ∧
    (∀ parse cs i j, searchMarker cs = some i → indexOfFrom cs '{' i = some j →
      braceScan (cs.drop j) 0 = none →
      (extractPayloadObject parse cs).success = false ∧
      (extractPayloadObject parse cs).data = none) ∧
    (∀ parse cs i j k, searchMarker cs = some i → indexOfFrom cs '{' i = some j →
      braceScan (cs.drop j) 0 = some k →
      (∀ v, parse ((cs.drop j).take (k + 1)) = .ok v →
        (extractPayloadObject parse cs).success = true ∧
        (extractPayloadObject parse cs).data = some v) ∧
      (∀ m, parse ((cs.drop j).take (k + 1)) = .error m →
        (extractPayloadObject parse cs).success = false ∧
        (extractPayloadObject parse cs).data = none)) ∧
    ((extractPayloadObject jsonParse c4text.data).success = true ∧
     (extractPayloadObject jsonParse c4text.data).data =
       some (Json.obj [("a", Json.num 1), ("b", Json.obj [("c", Json.num 2)])])) := by
  refine ⟨?_, ?_, ?_, ?_, by rfl, by rfl⟩
  · intro parse cs h
    simp [extractPayloadObject, h]
  · intro parse cs i h1 h2
    simp [extractPayloadObject, h1, h2]
  · intro parse cs i j h1 h2 h3
    simp [extractPayloadObject, h1, h2, h3, buildError]
  · intro parse cs i j k h1 h2 h3
    constructor
    · intro v hv
      simp [extractPayloadObject, h1, h2, h3, hv, buildResponse]
    · intro m hm
      simp [extractPayloadObject, h1, h2, h3, hm, buildError]

/-- Closed instance of `extractPayloadObject_spec`: marker-free text gives
the non-error not-found result. -/
theorem extractPayloadObject_spec_witness :
    extractPayloadObject jsonParse ("no marker in here".data) =
      buildResponse none ("No 'Payload:' marker found in log content.") := by
  exact extractPayloadObject_spec.1 jsonParse ("no marker in here".data) rfl

theorem stripCI_decomp {p s r : List Char} (h : stripCI p s = some r) :
    ∃ t, s = t ++ r ∧ t.map Char.toLower = p := by
  induction p generalizing s with
  | nil =>
    simp only [stripCI, Option.some.injEq] at h
    exact ⟨[], by simp [h], rfl⟩
  | cons a ps ih =>
    cases s with
    | nil => simp [stripCI] at h
    | cons c cs =>
      rw [stripCI] at h
      by_cases hc : c.toLower = a
      · rw [if_pos hc] at h
        obtain ⟨t, hts, htl⟩ := ih h
        exact ⟨c :: t, by simp [hts], by simp [htl, hc]⟩
      · rw [if_neg hc] at h
        exact absurd h (by simp)

theorem coreMatch_decomp_proj {s : List Char}
    (h : coreMatch ("proj".data) (some ("123".data)) s = true) :
    ∃ tok rest, s = tok ++ rest ∧ boundaryAfter rest = true ∧
      (tok.map Char.toLower = "proj123".data ∨
       tok.map Char.toLower = "proj-123".data ∨
       tok.map Char.toLower = "proj_123".data) := by
  unfold coreMatch at h
  cases h1 : stripCI ("proj".data) s with
  | none => rw [h1] at h; exact absurd h (by simp)
  | some rem =>
    rw [h1] at h
    obtain ⟨t1, hs1, hl1⟩ := stripCI_decomp h1
    rw [Bool.or_eq_true] at h
    rcases h with hA | hB
    · cases h2 : stripCI ("123".data) rem with
      | none => rw [h2] at hA; simp at hA
      | some rem2 =>
        rw [h2] at hA
        obtain ⟨t2, hs2, hl2⟩ := stripCI_decomp h2
        refine ⟨t1 ++ t2, rem2, by simp [hs1, hs2], hA, Or.inl ?_⟩
        simp [hl1, hl2]
    · cases rem with
      | nil => simp at hB
      | cons c rest =>
        rw [Bool.and_eq_true] at hB
        obtain ⟨hsep, hrest⟩ := hB
        cases h2 : stripCI ("123".data) rest with
        | none => rw [h2] at hrest; simp at hrest
        | some rem2 =>
          rw [h2] at hrest
          obtain ⟨t2, hs2, hl2⟩ := stripCI_decomp h2
          refine ⟨t1 ++ c :: t2, rem2, by simp [hs1, hs2], hrest, ?_⟩
          rw [Bool.or_eq_true] at hsep
          rcases hsep with hc | hc
          · obtain rfl : c = '-' := by simpa using hc
            refine Or.inr (Or.inl ?_)
            simp [hl1, hl2]
          · obtain rfl : c = '_' := by simpa using hc
            refine Or.inr (Or.inr ?_)
            simp [hl1, hl2]

theorem patSearch_decomp (alow : List Char) (blow : Option (List Char)) :
    ∀ (s : List Char) (ab : Bool), patSearch alow blow s ab = true →
      (ab = true ∧ coreMatch alow blow s = true) ∨
      (∃ pre c suf, s = pre ++ c :: suf ∧ isDelim c = true ∧
        coreMatch alow blow suf = true) := by
  intro s
  induction s with
  | nil =>
    intro ab h
    unfold patSearch at h
    rw [Bool.or_eq_true] at h
    rcases h with h1 | h1
    · rw [Bool.and_eq_true] at h1
      exact Or.inl h1
    · simp at h1
  | cons c rest ih =>
    intro ab h
    unfold patSearch at h
    rw [Bool.or_eq_true] at h
    rcases h with h1 | h1
    · rw [Bool.and_eq_true] at h1
      exact Or.inl h1
    · rcases ih (isDelim c) h1 with ⟨hd, hc⟩ | ⟨pre, c2, suf, hsplit, hd2, hc2⟩
      · exact Or.inr ⟨[], c, rest, rfl, hd, hc⟩
      · exact Or.inr ⟨c :: pre, c2, suf, by simp [hsplit], hd2, hc2⟩

/-- C5: for the identifier list `["PROJ-123"]` the Branch Matcher matches
`feature/PROJ-123-login` and `feature/proj_123_login` but not
`feature/PROJ1234-login`; and any branch name it matches contains the
identifier as a whole token — bounded on both sides by start/end of string
or one of `/`, `_`, `-` — in one of its case-insensitive separator
variants (`proj123`, `proj-123`, `proj_123`). -/
theorem findBranchesMatchingJiraIds_spec :
    (findBranchesMatchingJiraIds [{ name := "feature/PROJ-123-login", repo := "r1" }]
        ["PROJ-123"] =
      [{ jiraId := "PROJ-123", branchName := "feature/PROJ-123-login", repo := "r1" }]) ∧
    (findBranchesMatchingJiraIds [{ name := "feature/proj_123_login", repo := "r1" }]
        ["PROJ-123"] =
      [{ jiraId := "PROJ-123", branchName := "feature/proj_123_login", repo := "r1" }]) ∧
    (findBranchesMatchingJiraIds [{ name := "feature/PROJ1234-login", repo := "r1" }]
        ["PROJ-123"] = []) ∧
    (∀ name : List Char, patMatches ("PROJ-123".data) name = true →
      ∃ pre tok suf, name = pre ++ tok ++ suf ∧
        (pre = [] ∨ ∃ pre0 d, pre = pre0 ++ [d] ∧ isDelim d = true) ∧
        (suf = [] ∨ ∃ d suf0, suf = d :: suf0 ∧ isDelim d = true) ∧
        (tok.map Char.toLower = "proj123".data ∨
         tok.map Char.toLower = "proj-123".data ∨
         tok.map Char.toLower = "proj_123".data)) := by
  refine ⟨by rfl, by rfl, by rfl, ?_⟩
  intro name h
  have h' : patSearch ("proj".data) (some ("123".data)) name true = true := h
  rcases patSearch_decomp ("proj".data) (some ("123".data)) name true h' with
    ⟨-, hcore⟩ | ⟨pre0, c, suf1, hsplit, hdel, hcore⟩
  · obtain ⟨tok, rest, hts, hba, hvar⟩ := coreMatch_decomp_proj hcore
    refine ⟨[], tok, rest, by simp [hts], Or.inl rfl, ?_, hvar⟩
    cases rest with
    | nil => exact Or.inl rfl
    | cons d suf0 => exact Or.inr ⟨d, suf0, rfl, hba⟩
  · obtain ⟨tok, rest, hts, hba, hvar⟩ := coreMatch_decomp_proj hcore
    refine ⟨pre0 ++ [c], tok, rest, by simp [hsplit, hts], Or.inr ⟨pre0, c, rfl, hdel⟩, ?_, hvar⟩
    cases rest with
    | nil => exact Or.inl rfl
    | cons d suf0 => exact Or.inr ⟨d, suf0, rfl, hba⟩

theorem runStep_ok_status {T : Type} (n : String) (v : T) (a b : Nat) :
    (runStep n (.ok v) a b).status = .success := rfl

theorem runStep_ok_data {T : Type} (n : String) (v : T) (a b : Nat) :
    (runStep n (.ok v) a b).data = some v := rfl

theorem runStep_err_status {T : Type} (n m : String) (a b : Nat) :
    (runStep n (.error m : Except String T) a b).status = .failed := rfl

theorem run_cases (env : Env) (input : AppReleaseSummaryInput) :
    ∃ st v k iss, runAppReleaseSummary env input = buildFinalReport st v k iss ∧
      ((st.fixVersionResolution.status = .failed ∧ st.issueSearch = skipStep ∧
        st.parentFeatures = skipStep ∧ st.branchDiscovery = skipStep ∧
        st.logDownload = skipStep ∧ st.payloadExtraction = skipStep ∧ iss = []) ∨
       (st.fixVersionResolution.status = .success ∧ st.issueSearch.status = .failed ∧
        st.parentFeatures = skipStep ∧ st.branchDiscovery = skipStep ∧
        st.logDownload = skipStep ∧ st.payloadExtraction = skipStep ∧ iss = []) ∨
       (st.fixVersionResolution.status = .success ∧ st.issueSearch.status = .success ∧
        (∃ d, st.issueSearch.data = some d ∧ iss = d.issues) ∧
        (st.parentFeatures.status = .success ∨ st.parentFeatures.status = .failed) ∧
        (st.branchDiscovery.status = .success ∨ st.branchDiscovery.status = .failed) ∧
        ((st.logDownload = skipStep ∧ st.payloadExtraction = skipStep) ∨
         (candidateRepos st.branchDiscovery ≠ [] ∧ st.logDownload.status = .failed ∧
          st.payloadExtraction = skipStep) ∨
         (candidateRepos st.branchDiscovery ≠ [] ∧ st.logDownload.status = .success ∧
          (st.payloadExtraction.status = .success ∨ st.payloadExtraction.status = .failed))))) := by
  simp only [runAppReleaseSummary]
  cases h1 : step1Body env input ((input.projectKey).getD env.jiraProjectKey) with
  | error m1 =>
    refine ⟨_, _, _, _, rfl, Or.inl ⟨rfl, rfl, rfl, rfl, rfl, rfl, rfl⟩⟩
  | ok v1 =>
    simp [runStep_ok_status, runStep_ok_data]
    cases h2 : step2Body env v1.version (input.projectKey.getD env.jiraProjectKey) with
    | error m2 =>
      simp [runStep_err_status]
      exact ⟨_, _, _, _, rfl, Or.inr (Or.inl ⟨rfl, rfl, rfl, rfl, rfl, rfl, rfl⟩)⟩
    | ok d2 =>
      simp [runStep_ok_status, runStep_ok_data]
      set c := candidateRepos
        (runStep ("branchDiscovery") (step4Body env d2.issues) env.t4.1 env.t4.2) with hc
      by_cases ht : c.head?.getD "" = ""
      · rw [if_pos ht]
        refine ⟨_, _, _, _, rfl, ?_⟩
        refine Or.inr (Or.inr ⟨rfl, rfl, ⟨d2, rfl, rfl⟩, ?_, ?_, Or.inl ⟨rfl, rfl⟩⟩)
        · exact runStep_status_or ("parentFeatures") (step3Body env d2.issues) env.t3.1 env.t3.2
        · exact runStep_status_or ("branchDiscovery") (step4Body env d2.issues) env.t4.1 env.t4.2
      · rw [if_neg ht]
        have hcne : c ≠ [] := by
          intro h0
          exact ht (by rw [h0]; rfl)
        cases h5 : step5Body env input (c.head?.getD "") with
        | error m5 =>
          simp [runStep_err_status]
          refine ⟨_, _, _, _, rfl, ?_⟩
          refine Or.inr (Or.inr ⟨rfl, rfl, ⟨d2, rfl, rfl⟩, ?_, ?_,
            Or.inr (Or.inl ⟨hcne, rfl, rfl⟩)⟩)
          · exact runStep_status_or ("parentFeatures") (step3Body env d2.issues) env.t3.1 env.t3.2
          · exact runStep_status_or ("branchDiscovery") (step4Body env d2.issues) env.t4.1 env.t4.2
        | ok d5 =>
          simp [runStep_ok_status]
          refine ⟨_, _, _, _, rfl, ?_⟩
          refine Or.inr (Or.inr ⟨rfl, rfl, ⟨d2, rfl, rfl⟩, ?_, ?_,
            Or.inr (Or.inr ⟨hcne, rfl, ?_⟩)⟩)
          · exact runStep_status_or ("parentFeatures") (step3Body env d2.issues) env.t3.1 env.t3.2
          · exact runStep_status_or ("branchDiscovery") (step4Body env d2.issues) env.t4.1 env.t4.2
          · exact runStep_status_or ("payloadExtraction")
              (step6Body env (c.head?.getD "")
                (runStep ("logDownload") (Except.ok d5) env.t5.1 env.t5.2))
              env.t6.1 env.t6.2

/-- Closed instance of `findBranchesMatchingJiraIds_spec` on the matching
branch name. -/
theorem findBranchesMatchingJiraIds_spec_witness :
    ∃ pre tok suf, ("feature/PROJ-123-login".data : List Char) = pre ++ tok ++ suf ∧
      (pre = [] ∨ ∃ pre0 d, pre = pre0 ++ [d] ∧ isDelim d = true) ∧
      (suf = [] ∨ ∃ d suf0, suf = d :: suf0 ∧ isDelim d = true) ∧
      (tok.map Char.toLower = "proj123".data ∨
       tok.map Char.toLower = "proj-123".data ∨
       tok.map Char.toLower = "proj_123".data) := by
  exact findBranchesMatchingJiraIds_spec.2.2.2 ("feature/PROJ-123-login".data) (by rfl)

theorem reachable_trichotomy :
    ∀ a b c d e f : StepStatus, ReachableStatuses a b c d e f →
      ((overallFromStatuses a b c d e f = "failed" ↔ (a = .failed ∨ b = .failed)) ∧
       (overallFromStatuses a b c d e f = "complete" ↔
         (a = .success ∧ b = .success ∧ c = .success ∧ d = .success ∧
          e = .success ∧ f = .success)) ∧
       (overallFromStatuses a b c d e f = "partial" ↔
         (¬(a = .failed ∨ b = .failed) ∧
          ((a = .failed ∨ b = .failed ∨ c = .failed ∨ d = .failed ∨ e = .failed ∨ f = .failed) ∨
           (b = .skipped ∨ c = .skipped ∨ d = .skipped ∨ e = .skipped ∨ f = .skipped))))) := by
  intro a b c d e f h
  rcases h with ⟨rfl, rfl, rfl, rfl, rfl, rfl⟩ | ⟨rfl, rfl, rfl, rfl, rfl, rfl⟩ |
    ⟨rfl, rfl, rfl | rfl, rfl | rfl, (⟨rfl, rfl⟩ | ⟨rfl, rfl⟩ | ⟨rfl, rfl | rfl⟩)⟩
  all_goals decide

theorem run_reachable (env : Env) (input : AppReleaseSummaryInput) :
    ReachableStatuses
      (runAppReleaseSummary env input).data.steps.fixVersionResolution.status
      (runAppReleaseSummary env input).data.steps.issueSearch.status
      (runAppReleaseSummary env input).data.steps.parentFeatures.status
      (runAppReleaseSummary env input).data.steps.branchDiscovery.status
      (runAppReleaseSummary env input).data.steps.logDownload.status
      (runAppReleaseSummary env input).data.steps.payloadExtraction.status := by
  obtain ⟨st, v, k, iss, heq, hd⟩ := run_cases env input
  rw [heq, buildFinalReport_data_steps]
  rcases hd with ⟨h1, h2, h3, h4, h5, h6, -⟩ | ⟨h1, h2, h3, h4, h5, h6, -⟩ |
    ⟨h1, h2, -, h3, h4, hsub⟩
  · exact Or.inl ⟨h1, by rw [h2]; rfl, by rw [h3]; rfl, by rw [h4]; rfl,
      by rw [h5]; rfl, by rw [h6]; rfl⟩
  · exact Or.inr (Or.inl ⟨h1, h2, by rw [h3]; rfl, by rw [h4]; rfl,
      by rw [h5]; rfl, by rw [h6]; rfl⟩)
  · refine Or.inr (Or.inr ⟨h1, h2, h3, h4, ?_⟩)
    rcases hsub with ⟨h5, h6⟩ | ⟨-, h5, h6⟩ | ⟨-, h5, h6⟩
    · exact Or.inl ⟨by rw [h5]; rfl, by rw [h6]; rfl⟩
    · exact Or.inr (Or.inl ⟨h5, by rw [h6]; rfl⟩)
    · exact Or.inr (Or.inr ⟨h5, h6⟩)

/-- C1: in every report the pipeline returns, the derived overall status is
`failed` iff step 1 or step 2 failed; `complete` iff all six steps
succeeded; and `partial` in every other case — some step failed, or some
step other than the initial one remained skipped. -/
theorem pipeline_overallStatus_trichotomy (env : Env) (input : AppReleaseSummaryInput) :
    ((runAppReleaseSummary env input).data.overallStatus = "failed" ↔
      ((runAppReleaseSummary env input).data.steps.fixVersionResolution.status = .failed ∨
       (runAppReleaseSummary env input).data.steps.issueSearch.status = .failed)) ∧
    ((runAppReleaseSummary env input).data.overallStatus = "complete" ↔
      ((runAppReleaseSummary env input).data.steps.fixVersionResolution.status = .success ∧
       (runAppReleaseSummary env input).data.steps.issueSearch.status = .success ∧
       (runAppReleaseSummary env input).data.steps.parentFeatures.status = .success ∧
       (runAppReleaseSummary env input).data.steps.branchDiscovery.status = .success ∧
       (runAppReleaseSummary env input).data.steps.logDownload.status = .success ∧
       (runAppReleaseSummary env input).data.steps.payloadExtraction.status = .success)) ∧
    ((runAppReleaseSummary env input).data.overallStatus = "partial" ↔
      (¬((runAppReleaseSummary env input).data.steps.fixVersionResolution.status = .failed ∨
         (runAppReleaseSummary env input).data.steps.issueSearch.status = .failed) ∧
       (((runAppReleaseSummary env input).data.steps.fixVersionResolution.status = .failed ∨
         (runAppReleaseSummary env input).data.steps.issueSearch.status = .failed ∨
         (runAppReleaseSummary env input).data.steps.parentFeatures.status = .failed ∨
         (runAppReleaseSummary env input).data.steps.branchDiscovery.status = .failed ∨
         (runAppReleaseSummary env input).data.steps.logDownload.status = .failed ∨
         (runAppReleaseSummary env input).data.steps.payloadExtraction.status = .failed) ∨
        ((runAppReleaseSummary env input).data.steps.issueSearch.status = .skipped ∨
         (runAppReleaseSummary env input).data.steps.parentFeatures.status = .skipped ∨
         (runAppReleaseSummary env input).data.steps.branchDiscovery.status = .skipped ∨
         (runAppReleaseSummary env input).data.steps.logDownload.status = .skipped ∨
         (runAppReleaseSummary env input).data.steps.payloadExtraction.status = .skipped)))) := by
  have hreach := run_reachable env input
  have htri := reachable_trichotomy _ _ _ _ _ _ hreach
  have hov : (runAppReleaseSummary env input).data.overallStatus =
      overallFromStatuses
        (runAppReleaseSummary env input).data.steps.fixVersionResolution.status
        (runAppReleaseSummary env input).data.steps.issueSearch.status
        (runAppReleaseSummary env input).data.steps.parentFeatures.status
        (runAppReleaseSummary env input).data.steps.branchDiscovery.status
        (runAppReleaseSummary env input).data.steps.logDownload.status
        (runAppReleaseSummary env input).data.steps.payloadExtraction.status := by
    obtain ⟨st, v, k, iss, heq, -⟩ := run_cases env input
    rw [heq, buildFinalReport_data_steps, buildFinalReport_data_overall,
      overallStatusOf_eq_fromStatuses]
  rw [hov]
  exact htri

theorem skipStep_status {T : Type} : (skipStep : StepResult T).status = .skipped := rfl

/-- C6: a step 1 failure aborts the pipeline — steps 2-6 stay exactly the
skipped result, the overall status is `failed` and no report block is
produced; likewise a step 2 failure leaves steps 3-6 skipped with overall
status `failed` and no report block. -/
theorem pipeline_fatal_short_circuit (env : Env) (input : AppReleaseSummaryInput) :
    ((runAppReleaseSummary env input).data.steps.fixVersionResolution.status = .failed →
      (runAppReleaseSummary env input).data.steps.issueSearch = skipStep ∧
      (runAppReleaseSummary env input).data.steps.parentFeatures = skipStep ∧
      (runAppReleaseSummary env input).data.steps.branchDiscovery = skipStep ∧
      (runAppReleaseSummary env input).data.steps.logDownload = skipStep ∧
      (runAppReleaseSummary env input).data.steps.payloadExtraction = skipStep ∧
      (runAppReleaseSummary env input).data.overallStatus = "failed" ∧
      (runAppReleaseSummary env input).data.report = none) ∧
    ((runAppReleaseSummary env input).data.steps.issueSearch.status = .failed →
      (runAppReleaseSummary env input).data.steps.parentFeatures = skipStep ∧
      (runAppReleaseSummary env input).data.steps.branchDiscovery = skipStep ∧
      (runAppReleaseSummary env input).data.steps.logDownload = skipStep ∧
      (runAppReleaseSummary env input).data.steps.payloadExtraction = skipStep ∧
      (runAppReleaseSummary env input).data.overallStatus = "failed" ∧
      (runAppReleaseSummary env input).data.report = none) := by
  obtain ⟨st, v, k, iss, heq, hd⟩ := run_cases env input
  rw [heq, buildFinalReport_data_steps, buildFinalReport_data_overall,
    buildFinalReport_data_report]
  constructor
  · intro hfail
    rcases hd with ⟨h1, h2, h3, h4, h5, h6, hiss⟩ | ⟨h1, h2, h3, h4, h5, h6, hiss⟩ |
      ⟨h1, h2, -, -, -, -⟩
    · refine ⟨h2, h3, h4, h5, h6, ?_, ?_⟩
      · simp [overallStatusOf, hfail]
      · rw [hiss]
        rfl
    · rw [h1] at hfail
      exact absurd hfail (by decide)
    · rw [h1] at hfail
      exact absurd hfail (by decide)
  · intro hfail
    rcases hd with ⟨h1, h2, h3, h4, h5, h6, hiss⟩ | ⟨h1, h2, h3, h4, h5, h6, hiss⟩ |
      ⟨h1, h2, -, -, -, -⟩
    · rw [h2] at hfail
      exact absurd hfail (by decide)
    · refine ⟨h3, h4, h5, h6, ?_, ?_⟩
      · simp [overallStatusOf, hfail]
      · rw [hiss]
        rfl
    · rw [h2] at hfail
      exact absurd hfail (by decide)

/-- Closed instance of `pipeline_fatal_short_circuit`: when version
resolution rejects, the report carries a failed step 1, skipped steps 2-6
and no report block. -/
theorem pipeline_fatal_short_circuit_witness :
    (runAppReleaseSummary envStep1Fail inputAuto).data.steps.issueSearch = skipStep ∧
    (runAppReleaseSummary envStep1Fail inputAuto).data.steps.parentFeatures = skipStep ∧
    (runAppReleaseSummary envStep1Fail inputAuto).data.steps.branchDiscovery = skipStep ∧
    (runAppReleaseSummary envStep1Fail inputAuto).data.steps.logDownload = skipStep ∧
    (runAppReleaseSummary envStep1Fail inputAuto).data.steps.payloadExtraction = skipStep ∧
    (runAppReleaseSummary envStep1Fail inputAuto).data.overallStatus = "failed" ∧
    (runAppReleaseSummary envStep1Fail inputAuto).data.report = none := by
  exact (pipeline_fatal_short_circuit envStep1Fail inputAuto).1 (by rfl)

/-- C10: payload extraction is attempted only after a successful log
download — if `logDownload` failed then `payloadExtraction` is exactly the
skipped result (zero duration, no data, no error), and `payloadExtraction`
can be `success` or `failed` only when `logDownload` is `success`. -/
theorem pipeline_payload_needs_logDownload (env : Env) (input : AppReleaseSummaryInput) :
    ((runAppReleaseSummary env input).data.steps.logDownload.status = .failed →
      (runAppReleaseSummary env input).data.steps.payloadExtraction = skipStep) ∧
    (((runAppReleaseSummary env input).data.steps.payloadExtraction.status = .success ∨
      (runAppReleaseSummary env input).data.steps.payloadExtraction.status = .failed) →
      (runAppReleaseSummary env input).data.steps.logDownload.status = .success) := by
  obtain ⟨st, v, k, iss, heq, hd⟩ := run_cases env input
  rw [heq, buildFinalReport_data_steps]
  constructor
  · intro hfail
    rcases hd with ⟨-, -, -, -, h5, h6, -⟩ | ⟨-, -, -, -, h5, h6, -⟩ |
      ⟨-, -, -, -, -, hsub⟩
    · rw [h5] at hfail
      exact absurd hfail (by decide)
    · rw [h5] at hfail
      exact absurd hfail (by decide)
    · rcases hsub with ⟨h5, h6⟩ | ⟨-, h5, h6⟩ | ⟨-, h5, -⟩
      · rw [h5] at hfail
        exact absurd hfail (by decide)
      · exact h6
      · rw [h5] at hfail
        exact absurd hfail (by decide)
  · intro hrun
    rcases hd with ⟨-, -, -, -, h5, h6, -⟩ | ⟨-, -, -, -, h5, h6, -⟩ |
      ⟨-, -, -, -, -, hsub⟩
    · rw [h6] at hrun
      rcases hrun with h | h <;> exact absurd h (by decide)
    · rw [h6] at hrun
      rcases hrun with h | h <;> exact absurd h (by decide)
    · rcases hsub with ⟨h5, h6⟩ | ⟨-, h5, h6⟩ | ⟨-, h5, -⟩
      · rw [h6] at hrun
        rcases hrun with h | h <;> exact absurd h (by decide)
      · rw [h6] at hrun
        rcases hrun with h | h <;> exact absurd h (by decide)
      · exact h5

/-- Closed instance of `pipeline_payload_needs_logDownload`: with a
rejected first download, step 5 fails and step 6 is exactly skipped. -/
theorem pipeline_payload_needs_logDownload_witness :
    (runAppReleaseSummary envLogFail inputAuto).data.steps.payloadExtraction = skipStep ∧
    (runAppReleaseSummary envHappy inputAuto).data.steps.logDownload.status = .success := by
  constructor
  · exact (pipeline_payload_needs_logDownload envLogFail inputAuto).1 (by rfl)
  · exact (pipeline_payload_needs_logDownload envHappy inputAuto).2 (Or.inl (by rfl))

/-- C7: the candidate repository set after branch discovery is the
deduplicated repositories of the matches when step 4 succeeded with at
least one match, the first repository of the filtered listing when step 4
succeeded without matches, and empty when step 4 did not succeed; whenever
the set is empty, both `logDownload` and `payloadExtraction` are left
exactly skipped. -/
theorem candidateRepos_spec :
    (∀ (s4 : StepResult BranchData) (d : BranchData),
      s4.status = .success → s4.data = some d →
      ((d.matches' ≠ [] →
        candidateRepos s4 = dedupFirst (d.matches'.map (fun m => m.repo))) ∧
       (d.matches' = [] → candidateRepos s4 = d.repos.take 1))) ∧
    (∀ s4 : StepResult BranchData, s4.status ≠ .success → candidateRepos s4 = []) ∧
    (∀ (env : Env) (input : AppReleaseSummaryInput),
      candidateRepos (runAppReleaseSummary env input).data.steps.branchDiscovery = [] →
      (runAppReleaseSummary env input).data.steps.logDownload = skipStep ∧
      (runAppReleaseSummary env input).data.steps.payloadExtraction = skipStep) := by
  refine ⟨?_, ?_, ?_⟩
  · rintro ⟨stt, dat, err, dur⟩ d hs hdat
    simp only at hs hdat
    subst hs
    subst hdat
    constructor
    · intro hne
      simp [candidateRepos, List.length_pos.mpr hne]
    · intro hnil
      simp [candidateRepos, hnil]
  · rintro ⟨stt, dat, err, dur⟩ hs
    cases stt with
    | success => exact absurd rfl hs
    | failed => rfl
    | skipped => rfl
    | pending => rfl
  · intro env input hempty
    obtain ⟨st, v, k, iss, heq, hd⟩ := run_cases env input
    rw [heq, buildFinalReport_data_steps] at hempty ⊢
    rcases hd with ⟨-, -, -, -, h5, h6, -⟩ | ⟨-, -, -, -, h5, h6, -⟩ |
      ⟨-, -, -, -, -, hsub⟩
    · exact ⟨h5, h6⟩
    · exact ⟨h5, h6⟩
    · rcases hsub with ⟨h5, h6⟩ | ⟨hcne, -, -⟩ | ⟨hcne, -, -⟩
      · exact ⟨h5, h6⟩
      · exact absurd hempty hcne
      · exact absurd hempty hcne

/-- Closed instance of `candidateRepos_spec`: a failed discovery step gives
an empty candidate set, and with it steps 5 and 6 stay skipped. -/
theorem candidateRepos_spec_witness :
    candidateRepos (skipStep : StepResult BranchData) = [] ∧
    candidateRepos
      { status := .success,
        data := some { matches' := [{ jiraId := "PROJ-1", branchName := "b", repo := "r2" }],
                       repos := ["r0"], searchedRepos := 1 },
        error := none, durationMs := 0 } = ["r2"] ∧
    (runAppReleaseSummary envStep1Fail inputAuto).data.steps.logDownload = skipStep := by
  refine ⟨?_, ?_, ?_⟩
  · exact candidateRepos_spec.2.1 skipStep (by decide)
  · have h := (candidateRepos_spec.1
      { status := .success,
        data := some { matches' := [{ jiraId := "PROJ-1", branchName := "b", repo := "r2" }],
                       repos := ["r0"], searchedRepos := 1 },
        error := none, durationMs := 0 }
      { matches' := [{ jiraId := "PROJ-1", branchName := "b", repo := "r2" }],
        repos := ["r0"], searchedRepos := 1 } rfl rfl).1 (by simp)
    rw [h]
    rfl
  · exact (candidateRepos_spec.2.2 envStep1Fail inputAuto (by rfl)).1

/-- Closed instance of `pipeline_overallStatus_trichotomy`: a failed step 1
forces the overall status `failed`. -/
theorem pipeline_overallStatus_trichotomy_witness :
    (runAppReleaseSummary envStep1Fail inputAuto).data.overallStatus = "failed" := by
  exact (pipeline_overallStatus_trichotomy envStep1Fail inputAuto).1.mpr (Or.inl (by rfl))

theorem buildFinalReport_data_fixVersion (st : Steps) (v k : String) (iss : List JiraIssue) :
    (buildFinalReport st v k iss).data.fixVersion = v := rfl

theorem buildFinalReport_data_projectKey (st : Steps) (v k : String) (iss : List JiraIssue) :
    (buildFinalReport st v k iss).data.projectKey = k := rfl

/-- C3 counterexample: an invocation in which step 2 (issue search)
succeeds — with zero issues — and the returned report nevertheless has no
nested report block, contradicting the claim that the block is present
whenever step 2 succeeded. -/
theorem pipeline_report_counterexample :
    (runAppReleaseSummary envNoIssues inputAuto).data.steps.issueSearch.status = .success ∧
    (runAppReleaseSummary envNoIssues inputAuto).data.report = none := by
  exact ⟨by rfl, by rfl⟩

/-- C3 (amended): the nested report block is present iff step 2 succeeded
with a nonempty issue list; when present it is exactly the assembled block —
issues grouped by parent-feature key via `featureGroupsOf` (placeholder
feature summary/status when step 3's data lacks the key), parentless
issues in `unparentedIssues`, step 4's matches (empty unless branch
discovery succeeded), step 6's payload (empty object unless extraction
succeeded) and the one-line synopsis. -/
theorem pipeline_report_presence (env : Env) (input : AppReleaseSummaryInput) :
    ((runAppReleaseSummary env input).data.report.isSome ↔
      ((runAppReleaseSummary env input).data.steps.issueSearch.status = .success ∧
       ∃ d, (runAppReleaseSummary env input).data.steps.issueSearch.data = some d ∧
         d.issues ≠ [])) ∧
    (∀ blk, (runAppReleaseSummary env input).data.report = some blk →
      ∃ d, (runAppReleaseSummary env input).data.steps.issueSearch.data = some d ∧
        blk = buildReportBlock (runAppReleaseSummary env input).data.steps
          (runAppReleaseSummary env input).data.fixVersion
          (runAppReleaseSummary env input).data.projectKey d.issues ∧
        blk.branchMatches = branchMatchesOf (runAppReleaseSummary env input).data.steps ∧
        blk.deployPayload = deployPayloadOf (runAppReleaseSummary env input).data.steps ∧
        blk.unparentedIssues = unparentedOf d.issues ∧
        blk.issuesByFeature =
          featureGroupsOf (featuresOf (runAppReleaseSummary env input).data.steps) d.issues ∧
        (∀ g ∈ blk.issuesByFeature,
          featureLookup (featuresOf (runAppReleaseSummary env input).data.steps)
            g.featureKey = none →
          g.featureSummary = "(summary unavailable)" ∧ g.featureStatus = "unknown")) := by
  obtain ⟨st, v, k, iss, heq, hd⟩ := run_cases env input
  rw [heq, buildFinalReport_data_steps, buildFinalReport_data_report,
    buildFinalReport_data_fixVersion, buildFinalReport_data_projectKey]
  constructor
  · constructor
    · intro hsome
      by_cases hne : 0 < iss.length
      · rcases hd with ⟨-, -, -, -, -, -, hiss⟩ | ⟨-, -, -, -, -, -, hiss⟩ |
          ⟨-, h2, ⟨d, hdata, hissd⟩, -, -, -⟩
        · rw [hiss] at hne
          exact absurd hne (by decide)
        · rw [hiss] at hne
          exact absurd hne (by decide)
        · refine ⟨h2, d, hdata, ?_⟩
          rw [← hissd]
          exact List.length_pos.mp hne
      · rw [if_neg hne] at hsome
        exact absurd hsome (by simp)
    · rintro ⟨hs, d, hdata, hne⟩
      rcases hd with ⟨-, h2, -, -, -, -, -⟩ | ⟨-, h2, -, -, -, -, -⟩ |
        ⟨-, -, ⟨d', hdata', hissd⟩, -, -, -⟩
      · rw [h2] at hs
        exact absurd hs (by decide)
      · rw [hs] at h2
        exact absurd h2 (by decide)
      · have hdd : d' = d := by
          have := hdata'.symm.trans hdata
          exact Option.some.injEq d' d ▸ this
        subst hdd
        rw [hissd]
        rw [if_pos (List.length_pos.mpr hne)]
        simp
  · intro blk hblk
    by_cases hne : 0 < iss.length
    · rw [if_pos hne] at hblk
      have hblk' : blk = buildReportBlock st v k iss := by
        injection hblk with h
        exact h.symm
      rcases hd with ⟨-, -, -, -, -, -, hiss⟩ | ⟨-, -, -, -, -, -, hiss⟩ |
        ⟨-, -, ⟨d, hdata, hissd⟩, -, -, -⟩
      · rw [hiss] at hne
        exact absurd hne (by decide)
      · rw [hiss] at hne
        exact absurd hne (by decide)
      · subst hissd
        refine ⟨d, hdata, hblk', ?_, ?_, ?_, ?_, ?_⟩
        · rw [hblk']
          rfl
        · rw [hblk']
          rfl
        · rw [hblk']
          rfl
        · rw [hblk']
          rfl
        · intro g hg hnone
          rw [hblk'] at hg
          have hg' : g ∈ featureGroupsOf (featuresOf st) d.issues := hg
          obtain ⟨key, hkeymem, hgeq⟩ := List.mem_map.mp hg'
          rw [← hgeq] at hnone ⊢
          simp only [featureGroupsOf] at hnone ⊢
          rw [hnone]
          exact ⟨rfl, rfl⟩
    · rw [if_neg hne] at hblk
      exact absurd hblk (by simp)

/-- Closed instance of `pipeline_report_presence`: with one found issue
the report block is present. -/
theorem pipeline_report_presence_witness :
    (runAppReleaseSummary envHappy inputAuto).data.report.isSome := by
  exact (pipeline_report_presence envHappy inputAuto).1.mpr
    ⟨by rfl,
     { issues := [{ id := "1", key := "PROJ-1",
                    fields := { summary := "one", status := some { name := "Done" },
                                parent := some { key := "PROJ-100" } } }],
       total := 1 },
     by rfl, by simp⟩

end Ctx
